import Mathlib

/-!
Shallow embedding of `gst-libs/gst/rtp/gstbasertpaudiopayload.c`
(base class for audio RTP payloaders, frame- and sample-based CBR codecs).

Machine integers are modelled as `Nat`; 32-bit truncation (`guint` /
`guint32` stores) is written explicitly as `% UINT_MOD` at the points where
the C code narrows a wider value.  `GstClockTime` (guint64) wrap is not
reachable for any input considered here and is left unbounded.
The downstream sink (`gst_basertppayload_push`) is modelled as a function
from the index of the emitted packet to its flow result.
-/

namespace GstAudio

/-- GST_MSECOND in nanoseconds. -/
def GST_MSECOND : Nat := 1000000

/-- GST_SECOND in nanoseconds. -/
def GST_SECOND : Nat := 1000000000

/-- Modulus of 32-bit unsigned arithmetic. -/
def UINT_MOD : Nat := 4294967296

/-- G_MAXUINT, the 32-bit all-ones value. -/
def G_MAXUINT : Nat := 4294967295

/-- Modelled from the spec: `gst_util_uint64_scale` (GStreamer core, not in
src/) computes `val * num / denom` with a wide intermediate, i.e. the exact
rational floor ("Integer/rational scaling must avoid overflow"). -/
def uscale (val num denom : Nat) : Nat := val * num / denom

/-- Modelled from the spec: `gst_rtp_buffer_calc_payload_len mtu 0 0`
(gstrtpbuffer.c, not in src/) — the MTU translated into an upper bound on
payload bytes, i.e. the MTU minus the 12-byte fixed RTP header. -/
def calc_payload_len (mtu : Nat) : Nat := mtu - 12

/-- ALIGN_DOWN(val,len) = val - (val % len), as in the C macro. -/
def ALIGN_DOWN (val len : Nat) : Nat := val - val % len

/-- Flow result returned by the sink and by handle_buffer.  `error` stands
for any non-OK GstFlowReturn (GST_FLOW_ERROR in the config-error path). -/
inductive Flow where
  | ok : Flow
  | error : Flow
deriving DecidableEq, Repr

/-- Which geometry mode was selected (`priv->get_lengths` function pointer:
NULL / frame functions / sample functions). -/
inductive Mode where
  | unset : Mode
  | frame : Mode
  | sample : Mode
deriving DecidableEq, Repr

/-- Configuration fields read by the payloader: the geometry fields of
GstBaseRTPAudioPayload and the transport fields of GstBaseRTPPayload.
`max_ptime = none` models the unset (-1) value; times are nanoseconds. -/
structure Config where
  mode : Mode
  frame_size : Nat
  frame_duration : Nat
  sample_size : Nat
  fragment_size : Nat
  mtu : Nat
  max_ptime : Option Nat
  min_ptime : Nat
  clock_rate : Nat
  pt : Nat
deriving DecidableEq, Repr

/-- Modelled from the spec: the GstAdapter state the payloader observes
(gstadapter.c is GStreamer core, not in src/): pending byte count, the
timestamp of the most recently appended timestamped chunk (`none` =
GST_CLOCK_TIME_NONE), and the byte distance since that timestamp was
recorded. -/
structure AdapterState where
  avail : Nat
  prevTs : Option Nat
  distance : Nat
deriving DecidableEq, Repr

/-- Modelled from the spec: `gst_adapter_clear` empties the adapter and
invalidates the timestamp bookkeeping. -/
def adapterClear : AdapterState := { avail := 0, prevTs := none, distance := 0 }

/-- Modelled from the spec: pushing a chunk appends its bytes; a valid chunk
timestamp is recorded with distance 0 ("timestamp always refers to the start
of the most recently pushed contiguous chunk"), an invalid one leaves the
record and grows the distance. -/
def adapterPush (a : AdapterState) (size : Nat) (ts : Option Nat) : AdapterState :=
  match ts with
  | some t => { avail := a.avail + size, prevTs := some t, distance := 0 }
  | none => { a with avail := a.avail + size, distance := a.distance + size }

/-- Modelled from the spec: flushing removes bytes from the front and moves
the read position that many bytes past the recorded timestamp. -/
def adapterFlush (a : AdapterState) (n : Nat) : AdapterState :=
  { a with avail := a.avail - n, distance := a.distance + n }

/-- Mutable per-instance state: adapter, discont flag, running byte offset
(`priv->adapter`, `priv->discont`, `priv->offset`). -/
structure St where
  adapter : AdapterState
  discont : Bool
  offset : Nat
deriving DecidableEq, Repr

/-- An input chunk (GstBuffer): size in bytes, timestamp (`none` =
GST_CLOCK_TIME_NONE), and the DISCONT flag. -/
structure Chunk where
  size : Nat
  ts : Option Nat
  discont : Bool
deriving DecidableEq, Repr

/-- An emitted RTP packet: the metadata fields set by set_meta. -/
structure Packet where
  len : Nat
  pt : Nat
  marker : Bool
  discontFlag : Bool
  ts : Option Nat
  offsetField : Nat
deriving DecidableEq, Repr

/-- A run trace: current state plus the packets emitted so far, in order. -/
structure Trace where
  st : St
  packets : List Packet
deriving DecidableEq, Repr

/-- The fragment-size loop body of
`gst_base_rtp_audio_payload_set_samplebits_options`: double `fragment_size`
until it is a multiple of 8.  `fragment_size` is a `guint`, so the doubling
`fragment_size += fragment_size` wraps mod 2^32.  The C loop is unbounded;
it is embedded with explicit fuel and returns `none` when the fuel runs
out. -/
def computeFragmentBits : Nat → Nat → Option Nat
  | 0, f => if f % 8 = 0 then some f else none
  | n + 1, f => if f % 8 = 0 then some f else computeFragmentBits n ((f + f) % UINT_MOD)

/-- `gst_base_rtp_audio_payload_set_samplebits_options`: store the sample
bit width (a gint, so below 2^31 and stored into the guint loop variable
unchanged), derive `fragment_size` in bytes via the doubling loop, and clear
the adapter.  Fuel 3 suffices for every input (proved below); `none` would
mean the C loop did not finish in 3 doublings. -/
def set_samplebits_options (c : Config) (st : St) (sample_size : Nat) :
    Option (Config × St) :=
  (computeFragmentBits 3 sample_size).map fun fb =>
    ({ c with sample_size := sample_size, fragment_size := fb / 8 },
     { st with adapter := adapterClear })

/-- `gst_base_rtp_audio_payload_set_frame_options`: store frame duration and
size and clear the adapter. -/
def set_frame_options (c : Config) (st : St) (frame_duration frame_size : Nat) :
    Config × St :=
  ({ c with frame_duration := frame_duration, frame_size := frame_size },
   { st with adapter := adapterClear })

/-- The `frame_duration` local of `get_frame_lengths`: the frame duration in
nanoseconds, stored into a `guint`. -/
def frame_dur_ns (c : Config) : Nat := c.frame_duration * GST_MSECOND % UINT_MOD

/-- The `maxptime_octets` local of `get_frame_lengths`: the max_ptime bound
translated to bytes and forced up to at least one frame, or G_MAXUINT when
max_ptime is unset. -/
def frame_maxptime_octets (c : Config) : Nat :=
  match c.max_ptime with
  | some mp => max c.frame_size (uscale c.frame_size mp (frame_dur_ns c) % UINT_MOD)
  | none => G_MAXUINT

/-- The `max_payload_len` computed by `get_frame_lengths`: the MTU payload
capacity rounded down to whole frames, capped by the ptime bound. -/
def frame_max_payload (c : Config) : Nat :=
  min (ALIGN_DOWN (calc_payload_len c.mtu) c.frame_size) (frame_maxptime_octets c)

/-- The `min_payload_len` of `get_frame_lengths` before the clamp:
min_ptime in bytes, at least one frame. -/
def frame_min0 (c : Config) : Nat :=
  max (uscale c.frame_size c.min_ptime (frame_dur_ns c) % UINT_MOD) c.frame_size

/-- `gst_base_rtp_audio_payload_get_frame_lengths`: min/max payload length
and alignment for frame mode; the minimum is clamped down to the maximum
when they conflict.  The `guint` locals are narrowed with `% UINT_MOD`. -/
def get_frame_lengths (c : Config) : Option (Nat × Nat × Nat) :=
  if c.frame_size = 0 ∨ c.frame_duration = 0 then none
  else
    some (if frame_max_payload c < frame_min0 c then frame_max_payload c
          else frame_min0 c,
          frame_max_payload c, c.frame_size)

/-- The `maxptime_octets` local of `get_sample_lengths`, or G_MAXUINT when
max_ptime is unset.  `clock_rate * sample_size` is a 32-bit multiplication
in C. -/
def sample_maxptime_octets (c : Config) : Nat :=
  match c.max_ptime with
  | some mp => uscale (mp * 8) c.clock_rate (c.sample_size * GST_SECOND) % UINT_MOD
  | none => G_MAXUINT

/-- The `max_payload_len` computed by `get_sample_lengths`: MTU payload
capacity capped by the ptime bound. -/
def sample_max_payload (c : Config) : Nat :=
  min (calc_payload_len c.mtu) (sample_maxptime_octets c)

/-- The `min_payload_len` of `get_sample_lengths` before the clamp:
min_ptime in bytes, at least one fragment. -/
def sample_min0 (c : Config) : Nat :=
  max (uscale (c.min_ptime * 8) c.clock_rate (c.sample_size * GST_SECOND) % UINT_MOD)
      c.fragment_size

/-- `gst_base_rtp_audio_payload_get_sample_lengths`: min/max payload length
and alignment for sample mode; the minimum is clamped down to the maximum
when they conflict. -/
def get_sample_lengths (c : Config) : Option (Nat × Nat × Nat) :=
  if c.sample_size = 0 then none
  else
    some (if sample_max_payload c < sample_min0 c then sample_max_payload c
          else sample_min0 c,
          sample_max_payload c, c.fragment_size)

/-- Dispatch through `priv->get_lengths` (frame or sample function pointer). -/
def getLengths (c : Config) : Option (Nat × Nat × Nat) :=
  match c.mode with
  | Mode.unset => none
  | Mode.frame => get_frame_lengths c
  | Mode.sample => get_sample_lengths c

/-- `priv->get_duration`: bytes to nanoseconds.
Frame mode: `(bytes / frame_size) * (frame_duration * GST_MSECOND)`.
Sample mode: `uscale (bytes*8) GST_SECOND (clock_rate * sample_size)` with
the 32-bit denominator multiplication.  The C divides by `frame_size`
(resp. the `clock_rate * sample_size` product), so the value is meaningful
only when the active mode's divisor is nonzero: Lean `Nat` division by zero
yields 0 where the C program crashes, and theorems whose conclusions depend
on this value restrict their domain accordingly. -/
def get_duration (c : Config) (bytes : Nat) : Nat :=
  match c.mode with
  | Mode.unset => 0
  | Mode.frame => bytes / c.frame_size * (c.frame_duration * GST_MSECOND)
  | Mode.sample => uscale (bytes * 8) GST_SECOND (c.clock_rate * c.sample_size % UINT_MOD)

/-- The untruncated value computed by `priv->get_rtptime` before the return
type narrows it to `guint32`.  The C divides by `frame_size` (frame mode,
line 534) resp. `sample_size` (sample mode, line 597), so the value is
meaningful only when the active mode's divisor is nonzero: Lean `Nat`
division by zero yields 0 where the C program crashes inside set_meta, and
theorems about emitted packets restrict their domain accordingly. -/
def rtptimeRaw (c : Config) (bytes : Nat) : Nat :=
  match c.mode with
  | Mode.unset => 0
  | Mode.frame =>
      uscale (bytes / c.frame_size * (c.frame_duration * GST_MSECOND)) c.clock_rate GST_SECOND
  | Mode.sample => bytes * 8 / c.sample_size

/-- `priv->get_rtptime`: bytes to RTP time units, returned as `guint32`. -/
def get_rtptime (c : Config) (bytes : Nat) : Nat := rtptimeRaw c bytes % UINT_MOD

/-- `gst_base_rtp_audio_payload_set_meta`: build the packet metadata (payload
type, marker plus DISCONT when the discont flag is pending — which also
clears the flag —, timestamp, byte offset converted to RTP time), then
advance the running offset by the payload length. -/
def set_meta (c : Config) (st : St) (payload_len : Nat) (timestamp : Option Nat) :
    Packet × St :=
  ({ len := payload_len, pt := c.pt, marker := st.discont, discontFlag := st.discont,
     ts := timestamp, offsetField := get_rtptime c st.offset },
   { st with discont := false, offset := st.offset + payload_len })

/-- `gst_base_rtp_audio_payload_push`: build a packet of `payload_len` bytes
with the given timestamp, set metadata, and hand it to the sink.  The sink's
verdict for the n-th emitted packet is `sink n`. -/
def audio_push (c : Config) (sink : Nat → Flow) (tr : Trace) (payload_len : Nat)
    (timestamp : Option Nat) : Trace × Flow :=
  let pst := set_meta c tr.st payload_len timestamp
  ({ st := pst.2, packets := tr.packets ++ [pst.1] }, sink tr.packets.length)

/-- `gst_base_rtp_audio_payload_flush`: `payload_len? = none` models the -1
sentinel (flush all pending bytes); a zero length is a no-op returning OK.
`timestamp? = none` models the -1 sentinel: resolve the timestamp from the
adapter's recorded timestamp plus the duration of the distance when that
distance is positive. -/
def audio_flush (c : Config) (sink : Nat → Flow) (tr : Trace)
    (payload_len? : Option Nat) (timestamp? : Option Nat) : Trace × Flow :=
  let a := tr.st.adapter
  let payload_len := payload_len?.getD a.avail
  if payload_len = 0 then (tr, Flow.ok)
  else
    let timestamp : Option Nat :=
      match timestamp? with
      | some t => some t
      | none =>
          match a.prevTs with
          | some t => if 0 < a.distance then some (t + get_duration c a.distance) else some t
          | none => none
    let pst := set_meta c tr.st payload_len timestamp
    ({ st := { pst.2 with adapter := adapterFlush pst.2.adapter payload_len },
       packets := tr.packets ++ [pst.1] }, sink tr.packets.length)

/-- The buffered-path slicing loop of
`gst_base_rtp_audio_payload_handle_buffer`:
`while (available >= min_payload_len)` flush
`min max_payload_len (ALIGN_DOWN available align)` bytes with an automatic
timestamp, overwriting `ret` each iteration.  The C loop is unbounded; it is
embedded with explicit fuel and returns `none` when the fuel runs out. -/
def sliceLoop (c : Config) (sink : Nat → Flow) (min_payload_len max_payload_len align : Nat) :
    Nat → Nat → Flow → Trace → Option (Trace × Flow)
  | 0, available, ret, tr =>
      if available < min_payload_len then some (tr, ret) else none
  | fuel + 1, available, ret, tr =>
      if available < min_payload_len then some (tr, ret)
      else
        let payload_len := min max_payload_len (ALIGN_DOWN available align)
        let p := audio_flush c sink tr (some payload_len) none
        sliceLoop c sink min_payload_len max_payload_len align fuel
          (available - payload_len) p.2 p.1

/-- Set the pending discont flag (`priv->discont = TRUE`). -/
def setDiscont (tr : Trace) : Trace :=
  { tr with st := { tr.st with discont := true } }

/-- The DISCONT handling prologue of `handle_buffer`: when the chunk is
marked discontinuous, flush all pending bytes with an automatic timestamp
and then set the pending discont flag; otherwise do nothing (`ret` starts
as GST_FLOW_OK). -/
def discontStep (c : Config) (sink : Nat → Flow) (tr : Trace) (chunk : Chunk) :
    Trace × Flow :=
  if chunk.discont then
    let p := audio_flush c sink tr none none
    (setDiscont p.1, p.2)
  else (tr, Flow.ok)

/-- The path choice of `handle_buffer` after the lengths are computed:
fast path (empty adapter, chunk already within bounds — pushed through
directly with the chunk's own timestamp) or buffered path (push the chunk
into the adapter, then run the slicing loop on the combined availability). -/
def afterLengths (c : Config) (sink : Nat → Flow) (fuel : Nat)
    (min_payload_len max_payload_len align : Nat) (tr : Trace) (ret : Flow)
    (chunk : Chunk) : Option (Trace × Flow) :=
  if tr.st.adapter.avail = 0 ∧ min_payload_len ≤ chunk.size ∧
      chunk.size ≤ max_payload_len then
    some (audio_push c sink tr chunk.size chunk.ts)
  else
    sliceLoop c sink min_payload_len max_payload_len align fuel
      (tr.st.adapter.avail + chunk.size) ret
      { tr with st := { tr.st with
          adapter := adapterPush tr.st.adapter chunk.size chunk.ts } }

/-- `gst_base_rtp_audio_payload_handle_buffer`: config check (mode selected),
DISCONT prologue, length computation (second config check), then fast or
buffered path.  On a config error the chunk is dropped and GST_FLOW_ERROR
returned (a packet already emitted by the DISCONT flush stays emitted). -/
def handle_buffer (c : Config) (sink : Nat → Flow) (fuel : Nat) (tr : Trace)
    (chunk : Chunk) : Option (Trace × Flow) :=
  if c.mode = Mode.unset then some (tr, Flow.error)
  else
    let step1 := discontStep c sink tr chunk
    match getLengths c with
    | none => some (step1.1, Flow.error)
    | some (min_payload_len, max_payload_len, align) =>
        afterLengths c sink fuel min_payload_len max_payload_len align
          step1.1 step1.2 chunk

/-- `gst_base_rtp_payload_audio_change_state`, PAUSED_TO_READY arm: clear the
adapter.  The other transitions leave this state untouched. -/
def change_state_paused_to_ready (st : St) : St :=
  { st with adapter := adapterClear }

/-- An input event for a run: a chunk handled by handle_buffer, or an EOS
event (flush all pending bytes with automatic timestamp). -/
inductive Ev where
  | chunk (ch : Chunk) : Ev
  | eos : Ev
deriving Repr

/-- Run a sequence of events, threading the trace; `none` if some
handle_buffer call ran out of fuel. -/
def runEvents (c : Config) (sink : Nat → Flow) (fuel : Nat) :
    List Ev → Trace → Option Trace
  | [], tr => some tr
  | Ev.chunk ch :: rest, tr =>
      (handle_buffer c sink fuel tr ch).bind fun p => runEvents c sink fuel rest p.1
  | Ev.eos :: rest, tr =>
      runEvents c sink fuel rest (audio_flush c sink tr none none).1

/-- Total payload bytes of a packet list. -/
def totalLen (l : List Packet) : Nat := (l.map Packet.len).sum

/-- Total input bytes of an event list (chunks only). -/
def totalSize (l : List Ev) : Nat :=
  (l.map fun e => match e with | Ev.chunk ch => ch.size | Ev.eos => 0).sum

/-- Number of packets carrying the discontinuity marker. -/
def markedCount (l : List Packet) : Nat := (l.filter fun p => p.marker).length

/-- The automatic timestamp resolution performed by
`gst_base_rtp_audio_payload_flush` when its timestamp argument is the -1
sentinel: the adapter's recorded timestamp, advanced by the duration of the
recorded byte distance when that distance is positive. -/
def autoTimestamp (c : Config) (a : AdapterState) : Option Nat :=
  match a.prevTs with
  | some t => if 0 < a.distance then some (t + get_duration c a.distance) else some t
  | none => none

/-- The packet built by a positive-length flush from state `st`. -/
def flushPacket (c : Config) (st : St) (n : Nat) : Packet :=
  { len := n, pt := c.pt, marker := st.discont, discontFlag := st.discont,
    ts := autoTimestamp c st.adapter, offsetField := get_rtptime c st.offset }

theorem totalLen_append (l : List Packet) (p : Packet) :
    totalLen (l ++ [p]) = totalLen l + p.len := by
  simp [totalLen]

theorem align_down_le (v l : Nat) : ALIGN_DOWN v l ≤ v := Nat.sub_le _ _

theorem align_down_eq (v l : Nat) : ALIGN_DOWN v l = l * (v / l) := by
  have h := Nat.div_add_mod v l
  unfold ALIGN_DOWN
  omega

theorem align_down_mod (v l : Nat) : ALIGN_DOWN v l % l = 0 := by
  rw [align_down_eq]
  exact Nat.mul_mod_right _ _

theorem le_align_down (v l m : Nat) (hl : 0 < l) (hd : l ∣ m) (hle : m ≤ v) :
    m ≤ ALIGN_DOWN v l := by
  rw [align_down_eq]
  obtain ⟨k, rfl⟩ := hd
  have hk : k ≤ v / l :=
    (Nat.le_div_iff_mul_le hl).2 (by rw [Nat.mul_comm]; exact hle)
  exact Nat.mul_le_mul_left l hk

theorem audio_flush_zero (c : Config) (sink : Nat → Flow) (tr : Trace)
    (ts? : Option Nat) : audio_flush c sink tr (some 0) ts? = (tr, Flow.ok) := rfl

theorem audio_flush_none_empty (c : Config) (sink : Nat → Flow) (tr : Trace)
    (ts? : Option Nat) (h : tr.st.adapter.avail = 0) :
    audio_flush c sink tr none ts? = (tr, Flow.ok) := by
  unfold audio_flush
  simp [h]

/-- The trace produced by a positive-length flush: state with the adapter
drained by `n`, the discont flag consumed, the offset advanced, and the
flush packet appended. -/
def flushTrace (c : Config) (tr : Trace) (n : Nat) : Trace :=
  { st := { adapter := adapterFlush tr.st.adapter n, discont := false,
            offset := tr.st.offset + n },
    packets := tr.packets ++ [flushPacket c tr.st n] }

theorem audio_flush_pos (c : Config) (sink : Nat → Flow) (tr : Trace) (n : Nat)
    (hn : n ≠ 0) :
    audio_flush c sink tr (some n) none =
      (flushTrace c tr n, sink tr.packets.length) := by
  unfold audio_flush set_meta flushTrace flushPacket autoTimestamp
  simp [hn]

theorem audio_flush_zero_fst (c : Config) (sink : Nat → Flow) (tr : Trace) :
    (audio_flush c sink tr (some 0) none).1 = tr := rfl

theorem audio_flush_zero_snd (c : Config) (sink : Nat → Flow) (tr : Trace) :
    (audio_flush c sink tr (some 0) none).2 = Flow.ok := rfl

theorem audio_flush_pos_fst (c : Config) (sink : Nat → Flow) (tr : Trace)
    (n : Nat) (hn : n ≠ 0) :
    (audio_flush c sink tr (some n) none).1 = flushTrace c tr n := by
  rw [audio_flush_pos c sink tr n hn]

theorem audio_flush_pos_snd (c : Config) (sink : Nat → Flow) (tr : Trace)
    (n : Nat) (hn : n ≠ 0) :
    (audio_flush c sink tr (some n) none).2 = sink tr.packets.length := by
  rw [audio_flush_pos c sink tr n hn]

theorem flushTrace_packets (c : Config) (tr : Trace) (n : Nat) :
    (flushTrace c tr n).packets = tr.packets ++ [flushPacket c tr.st n] := rfl

theorem flushTrace_discont (c : Config) (tr : Trace) (n : Nat) :
    (flushTrace c tr n).st.discont = false := rfl

theorem flushTrace_avail (c : Config) (tr : Trace) (n : Nat) :
    (flushTrace c tr n).st.adapter.avail = tr.st.adapter.avail - n := rfl

theorem flushPacket_len (c : Config) (st : St) (n : Nat) :
    (flushPacket c st n).len = n := rfl

theorem flushPacket_marker (c : Config) (st : St) (n : Nat) :
    (flushPacket c st n).marker = st.discont := rfl

theorem audio_flush_all (c : Config) (sink : Nat → Flow) (tr : Trace) :
    audio_flush c sink tr none none =
      audio_flush c sink tr (some tr.st.adapter.avail) none := rfl

/-- The packet built by the fast-path push. -/
def pushPacket (c : Config) (st : St) (n : Nat) (ts : Option Nat) : Packet :=
  { len := n, pt := c.pt, marker := st.discont, discontFlag := st.discont,
    ts := ts, offsetField := get_rtptime c st.offset }

theorem audio_push_eq (c : Config) (sink : Nat → Flow) (tr : Trace) (n : Nat)
    (ts : Option Nat) :
    audio_push c sink tr n ts =
      ({ st := { adapter := tr.st.adapter, discont := false,
                 offset := tr.st.offset + n },
         packets := tr.packets ++ [pushPacket c tr.st n ts] },
       sink tr.packets.length) := rfl

theorem get_frame_lengths_min_le_max (c : Config) (m M a : Nat)
    (h : get_frame_lengths c = some (m, M, a)) : m ≤ M := by
  unfold get_frame_lengths at h
  split at h
  · exact absurd h (by simp)
  · simp only [Option.some.injEq, Prod.mk.injEq] at h
    obtain ⟨h1, h2, h3⟩ := h
    subst h2
    split at h1 <;> omega

theorem get_sample_lengths_min_le_max (c : Config) (m M a : Nat)
    (h : get_sample_lengths c = some (m, M, a)) : m ≤ M := by
  unfold get_sample_lengths at h
  split at h
  · exact absurd h (by simp)
  · simp only [Option.some.injEq, Prod.mk.injEq] at h
    obtain ⟨h1, h2, h3⟩ := h
    subst h2
    split at h1 <;> omega

theorem getLengths_min_le_max (c : Config) (m M a : Nat)
    (h : getLengths c = some (m, M, a)) : m ≤ M := by
  unfold getLengths at h
  cases hm : c.mode
  · rw [hm] at h; simp at h
  · rw [hm] at h; exact get_frame_lengths_min_le_max c m M a h
  · rw [hm] at h; exact get_sample_lengths_min_le_max c m M a h

theorem sliceLoop_exit {c : Config} {sink : Nat → Flow}
    {minp maxp align avail : Nat} {ret : Flow} {tr : Trace} (fuel : Nat)
    (hlt : avail < minp) :
    sliceLoop c sink minp maxp align fuel avail ret tr = some (tr, ret) := by
  cases fuel <;> simp [sliceLoop, hlt]

theorem sliceLoop_zero {c : Config} {sink : Nat → Flow}
    {minp maxp align avail : Nat} {ret : Flow} {tr : Trace}
    (hge : ¬ avail < minp) :
    sliceLoop c sink minp maxp align 0 avail ret tr = none := by
  simp [sliceLoop, hge]

theorem sliceLoop_step {c : Config} {sink : Nat → Flow}
    {minp maxp align avail : Nat} {ret : Flow} {tr : Trace} (fuel : Nat)
    (hge : ¬ avail < minp) :
    sliceLoop c sink minp maxp align (fuel + 1) avail ret tr =
      sliceLoop c sink minp maxp align fuel
        (avail - min maxp (ALIGN_DOWN avail align))
        (audio_flush c sink tr (some (min maxp (ALIGN_DOWN avail align))) none).2
        (audio_flush c sink tr (some (min maxp (ALIGN_DOWN avail align))) none).1 := by
  simp only [sliceLoop, hge, if_false]

theorem sliceLoop_stuck {c : Config} {sink : Nat → Flow}
    {minp maxp align avail : Nat}
    (hge : ¬ avail < minp) (hz : min maxp (ALIGN_DOWN avail align) = 0) :
    ∀ fuel (ret : Flow) (tr : Trace),
      sliceLoop c sink minp maxp align fuel avail ret tr = none := by
  intro fuel
  induction fuel with
  | zero => intro ret tr; exact sliceLoop_zero hge
  | succ fuel ih =>
      intro ret tr
      rw [sliceLoop_step fuel hge, hz]
      simpa [audio_flush_zero] using ih Flow.ok tr

/-- Everything a single run of the slicing loop guarantees: the loop only
appends packets; every appended packet has length
`min max_payload_len (ALIGN_DOWN av align)` for some `av ≥ min_payload_len`
not exceeding the entry availability; the discont flag is consumed by the
first appended packet (which carries it as marker) and is false afterwards;
byte conservation holds when the `available` argument is in sync with the
adapter; and the returned flow is the sink verdict of the last appended
packet (or the incoming `ret` when nothing was appended). -/
theorem sliceLoop_run {c : Config} {sink : Nat → Flow} {minp maxp align : Nat} :
    ∀ fuel avail (ret : Flow) (tr : Trace) (out : Trace × Flow),
      sliceLoop c sink minp maxp align fuel avail ret tr = some out →
      ∃ new, out.1.packets = tr.packets ++ new ∧
        (∀ p ∈ new, ∃ av, ¬ av < minp ∧ av ≤ avail ∧
            p.len = min maxp (ALIGN_DOWN av align)) ∧
        out.1.st.discont = (if new.isEmpty then tr.st.discont else false) ∧
        (∀ p, new.head? = some p → p.marker = tr.st.discont) ∧
        (∀ q ∈ new.tail, q.marker = false) ∧
        (avail = tr.st.adapter.avail →
          totalLen out.1.packets + out.1.st.adapter.avail =
            totalLen tr.packets + avail) ∧
        out.2 = (if out.1.packets.length ≤ tr.packets.length then ret
                 else sink (out.1.packets.length - 1)) := by
  intro fuel
  induction fuel with
  | zero =>
      intro avail ret tr out h
      by_cases hlt : avail < minp
      · rw [sliceLoop_exit 0 hlt] at h
        injection h with h
        subst h
        refine ⟨[], by simp, by simp, by simp, by simp, by simp, ?_, by simp⟩
        intro hsync
        simp [hsync]
      · rw [sliceLoop_zero hlt] at h
        exact Option.noConfusion h
  | succ fuel ih =>
      intro avail ret tr out h
      by_cases hlt : avail < minp
      · rw [sliceLoop_exit (fuel + 1) hlt] at h
        injection h with h
        subst h
        refine ⟨[], by simp, by simp, by simp, by simp, by simp, ?_, by simp⟩
        intro hsync
        simp [hsync]
      · rw [sliceLoop_step fuel hlt] at h
        by_cases hz : min maxp (ALIGN_DOWN avail align) = 0
        · rw [hz, audio_flush_zero_fst, audio_flush_zero_snd, Nat.sub_zero] at h
          rw [sliceLoop_stuck hlt hz fuel Flow.ok tr] at h
          exact Option.noConfusion h
        · rw [audio_flush_pos_fst c sink tr _ hz,
              audio_flush_pos_snd c sink tr _ hz] at h
          obtain ⟨new2, hP1, hP2, hP3, hP4, hP5, hP6, hP7⟩ := ih _ _ _ _ h
          have hall2 : ∀ q ∈ new2, q.marker = false := by
            intro q hq
            cases hn2 : new2 with
            | nil => rw [hn2] at hq; simp at hq
            | cons a l =>
                rw [hn2] at hq
                rcases List.mem_cons.mp hq with hqa | hql
                · subst hqa
                  have := hP4 q (by rw [hn2]; rfl)
                  rw [flushTrace_discont] at this
                  exact this
                · have := hP5 q (by rw [hn2]; exact hql)
                  exact this
          refine ⟨flushPacket c tr.st (min maxp (ALIGN_DOWN avail align)) :: new2,
            ?_, ?_, ?_, ?_, ?_, ?_, ?_⟩
          · rw [hP1, flushTrace_packets]
            simp
          · intro p hp
            rcases List.mem_cons.mp hp with hpf | hp2
            · subst hpf
              exact ⟨avail, hlt, le_refl _, flushPacket_len _ _ _⟩
            · obtain ⟨av, h1, h2, h3⟩ := hP2 p hp2
              exact ⟨av, h1, le_trans h2 (Nat.sub_le _ _), h3⟩
          · rw [hP3, flushTrace_discont]
            simp [ite_self]
          · intro p hp
            simp only [List.head?_cons, Option.some.injEq] at hp
            subst hp
            exact flushPacket_marker _ _ _
          · intro q hq
            simp only [List.tail_cons] at hq
            exact hall2 q hq
          · intro hsync
            have hnle : min maxp (ALIGN_DOWN avail align) ≤ avail :=
              le_trans (min_le_right _ _) (align_down_le _ _)
            have hsync2 : avail - min maxp (ALIGN_DOWN avail align) =
                (flushTrace c tr (min maxp (ALIGN_DOWN avail align))).st.adapter.avail := by
              rw [flushTrace_avail, hsync]
            have hc := hP6 hsync2
            rw [flushTrace_packets, totalLen_append, flushPacket_len] at hc
            omega
          · have hlen : out.1.packets.length =
                tr.packets.length + 1 + new2.length := by
              rw [hP1, flushTrace_packets]
              simp
              omega
            rw [hP7]
            have hlen2 : (flushTrace c tr (min maxp (ALIGN_DOWN avail align))).packets.length =
                tr.packets.length + 1 := by
              rw [flushTrace_packets]
              simp
            rw [hlen2]
            rw [if_neg (by omega : ¬ out.1.packets.length ≤ tr.packets.length)]
            by_cases hle : out.1.packets.length ≤ tr.packets.length + 1
            · rw [if_pos hle]
              have : tr.packets.length = out.1.packets.length - 1 := by omega
              rw [this]
            · rw [if_neg hle]

/-- The trace produced by the slicing loop (state and emitted packets) does
not depend on the sink verdicts, nor on the incoming `ret`: only the
returned flow value does. -/
theorem sliceLoop_sink_fst {c : Config} {minp maxp align : Nat}
    (sinkA sinkB : Nat → Flow) :
    ∀ fuel avail (r1 r2 : Flow) (tr : Trace),
      (sliceLoop c sinkA minp maxp align fuel avail r1 tr).map Prod.fst =
      (sliceLoop c sinkB minp maxp align fuel avail r2 tr).map Prod.fst := by
  intro fuel
  induction fuel with
  | zero =>
      intro avail r1 r2 tr
      by_cases hlt : avail < minp
      · rw [sliceLoop_exit 0 hlt, sliceLoop_exit 0 hlt]
        simp
      · rw [sliceLoop_zero hlt, sliceLoop_zero hlt]
  | succ fuel ih =>
      intro avail r1 r2 tr
      by_cases hlt : avail < minp
      · rw [sliceLoop_exit (fuel + 1) hlt, sliceLoop_exit (fuel + 1) hlt]
        simp
      · rw [sliceLoop_step fuel hlt, sliceLoop_step fuel hlt]
        by_cases hz : min maxp (ALIGN_DOWN avail align) = 0
        · rw [hz, audio_flush_zero_fst, audio_flush_zero_fst,
              audio_flush_zero_snd, audio_flush_zero_snd]
          exact ih _ _ _ _
        · rw [audio_flush_pos_fst c sinkA tr _ hz,
              audio_flush_pos_fst c sinkB tr _ hz,
              audio_flush_pos_snd c sinkA tr _ hz,
              audio_flush_pos_snd c sinkB tr _ hz]
          exact ih _ _ _ _

theorem adapterPush_avail (a : AdapterState) (s : Nat) (t : Option Nat) :
    (adapterPush a s t).avail = a.avail + s := by
  cases t <;> rfl

theorem discontStep_false {c : Config} {sink : Nat → Flow} {tr : Trace}
    {chunk : Chunk} (hd : chunk.discont = false) :
    discontStep c sink tr chunk = (tr, Flow.ok) := by
  unfold discontStep
  rw [hd]
  simp

theorem discontStep_true_empty {c : Config} {sink : Nat → Flow} {tr : Trace}
    {chunk : Chunk} (hd : chunk.discont = true)
    (ha : tr.st.adapter.avail = 0) :
    discontStep c sink tr chunk = (setDiscont tr, Flow.ok) := by
  unfold discontStep
  rw [hd]
  simp [audio_flush_none_empty c sink tr none ha]

theorem discontStep_true_pos {c : Config} {sink : Nat → Flow} {tr : Trace}
    {chunk : Chunk} (hd : chunk.discont = true)
    (ha : tr.st.adapter.avail ≠ 0) :
    discontStep c sink tr chunk =
      (setDiscont (flushTrace c tr tr.st.adapter.avail), sink tr.packets.length) := by
  unfold discontStep
  rw [hd]
  rw [audio_flush_all, audio_flush_pos c sink tr _ ha]
  simp

theorem getLengths_mode_set {c : Config} {x : Nat × Nat × Nat}
    (hg : getLengths c = some x) : ¬ c.mode = Mode.unset := by
  intro hm
  unfold getLengths at hg
  rw [hm] at hg
  exact Option.noConfusion hg

theorem handle_buffer_config2 {c : Config} {sink : Nat → Flow} {fuel : Nat}
    {tr : Trace} {chunk : Chunk} (hm : ¬ c.mode = Mode.unset)
    (hg : getLengths c = none) :
    handle_buffer c sink fuel tr chunk =
      some ((discontStep c sink tr chunk).1, Flow.error) := by
  unfold handle_buffer
  rw [if_neg hm, hg]

theorem handle_buffer_some {c : Config} {sink : Nat → Flow} {fuel : Nat}
    {tr : Trace} {chunk : Chunk} {mp Mp al : Nat}
    (hg : getLengths c = some (mp, Mp, al)) :
    handle_buffer c sink fuel tr chunk =
      afterLengths c sink fuel mp Mp al (discontStep c sink tr chunk).1
        (discontStep c sink tr chunk).2 chunk := by
  unfold handle_buffer
  rw [if_neg (getLengths_mode_set hg), hg]

theorem discontStep_conserve (c : Config) (sink : Nat → Flow) (tr : Trace)
    (chunk : Chunk) :
    totalLen (discontStep c sink tr chunk).1.packets +
        (discontStep c sink tr chunk).1.st.adapter.avail =
      totalLen tr.packets + tr.st.adapter.avail := by
  cases hd : chunk.discont with
  | false => rw [discontStep_false hd]
  | true =>
      by_cases ha : tr.st.adapter.avail = 0
      · rw [discontStep_true_empty hd ha]
        simp [setDiscont, ha]
      · rw [discontStep_true_pos hd ha]
        simp only [setDiscont, flushTrace_packets]
        rw [totalLen_append, flushPacket_len]
        simp [flushTrace, adapterFlush]

theorem afterLengths_conserve {c : Config} {sink : Nat → Flow} {fuel : Nat}
    {mp Mp al : Nat} {tr : Trace} {ret : Flow} {chunk : Chunk}
    {out : Trace × Flow}
    (hrun : afterLengths c sink fuel mp Mp al tr ret chunk = some out) :
    totalLen out.1.packets + out.1.st.adapter.avail =
      totalLen tr.packets + tr.st.adapter.avail + chunk.size := by
  unfold afterLengths at hrun
  split at hrun
  · injection hrun with hrun
    subst hrun
    rw [audio_push_eq]
    simp [totalLen_append, pushPacket]
    omega
  · obtain ⟨new, hP1, hP2, hP3, hP4, hP5, hP6, hP7⟩ := sliceLoop_run _ _ _ _ _ hrun
    have hsync := hP6 (by simp [adapterPush_avail])
    simp at hsync
    omega

theorem handle_buffer_conserve {c : Config} {sink : Nat → Flow} {fuel : Nat}
    {tr : Trace} {chunk : Chunk} {out : Trace × Flow} {mp Mp al : Nat}
    (hg : getLengths c = some (mp, Mp, al))
    (hrun : handle_buffer c sink fuel tr chunk = some out) :
    totalLen out.1.packets + out.1.st.adapter.avail =
      totalLen tr.packets + tr.st.adapter.avail + chunk.size := by
  rw [handle_buffer_some hg] at hrun
  have h1 := afterLengths_conserve hrun
  have h2 := discontStep_conserve c sink tr chunk
  omega

theorem audio_flush_all_conserve (c : Config) (sink : Nat → Flow) (tr : Trace) :
    totalLen (audio_flush c sink tr none none).1.packets +
        (audio_flush c sink tr none none).1.st.adapter.avail =
      totalLen tr.packets + tr.st.adapter.avail := by
  by_cases ha : tr.st.adapter.avail = 0
  · rw [audio_flush_none_empty c sink tr none ha]
  · rw [audio_flush_all, audio_flush_pos c sink tr _ ha]
    simp only [flushTrace_packets]
    rw [totalLen_append, flushPacket_len]
    simp [flushTrace, adapterFlush]

/-- Conservation over a sequence of events, given a valid geometry. -/
theorem runEvents_conserve {c : Config} {sink : Nat → Flow} {fuel : Nat}
    {mp Mp al : Nat} (hg : getLengths c = some (mp, Mp, al)) :
    ∀ (evs : List Ev) (tr tr' : Trace), runEvents c sink fuel evs tr = some tr' →
      totalLen tr'.packets + tr'.st.adapter.avail =
        totalLen tr.packets + tr.st.adapter.avail + totalSize evs := by
  intro evs
  induction evs with
  | nil =>
      intro tr tr' h
      injection h with h
      subst h
      simp [totalSize]
  | cons e rest ih =>
      intro tr tr' h
      cases e with
      | chunk ch =>
          unfold runEvents at h
          cases hhb : handle_buffer c sink fuel tr ch with
          | none => rw [hhb] at h; exact Option.noConfusion h
          | some p =>
              rw [hhb] at h
              simp only [Option.some_bind] at h
              have h1 := ih p.1 tr' h
              have h2 := handle_buffer_conserve hg hhb
              simp only [totalSize, List.map_cons, List.sum_cons] at *
              omega
      | eos =>
          unfold runEvents at h
          have h1 := ih _ tr' h
          have h2 := audio_flush_all_conserve c sink tr
          simp only [totalSize, List.map_cons, List.sum_cons] at *
          omega

/-- Frame-mode configuration used by several concrete runs below:
20-byte frames of 10 ms, MTU 1012 (payload capacity 1000), max_ptime 10 ms
(so min = max = 20, align = 20), clock rate 8000. -/
def cfgA : Config :=
  { mode := Mode.frame, frame_size := 20, frame_duration := 10, sample_size := 0,
    fragment_size := 0, mtu := 1012, max_ptime := some 10000000, min_ptime := 0,
    clock_rate := 8000, pt := 96 }

/-- cfgA with max_ptime 15 ms: the ptime cap computes to 30 bytes, which is
not a multiple of the 20-byte frame alignment. -/
def cfgB : Config := { cfgA with max_ptime := some 15000000 }

/-- cfgA with MTU 20: the payload capacity (8 bytes) is smaller than one
frame, so max_payload_len computes to 0 and min is clamped to 0. -/
def cfgC : Config := { cfgA with mtu := 20, max_ptime := none }

/-- Sample-mode configuration: 8-bit samples (fragment 1 byte), clock rate
8000, MTU 1012, no ptime bounds. -/
def cfgS : Config :=
  { mode := Mode.sample, frame_size := 0, frame_duration := 0, sample_size := 8,
    fragment_size := 1, mtu := 1012, max_ptime := none, min_ptime := 0,
    clock_rate := 8000, pt := 96 }

/-- Frame-mode configuration with 2-byte frames, used for a small
conservation run. -/
def cfgF2 : Config :=
  { mode := Mode.frame, frame_size := 2, frame_duration := 10, sample_size := 0,
    fragment_size := 0, mtu := 22, max_ptime := none, min_ptime := 0,
    clock_rate := 8000, pt := 96 }

/-- The all-OK sink. -/
def sinkOK : Nat → Flow := fun _ => Flow.ok

/-- A sink that rejects the second packet (index 1) and accepts the rest. -/
def sinkFail2 : Nat → Flow := fun n => if n = 1 then Flow.error else Flow.ok

/-- The empty starting trace. -/
def trEmpty : Trace :=
  { st := { adapter := adapterClear, discont := false, offset := 0 }, packets := [] }

/-- C6: byte conservation.  For every sequence of chunks and explicit
flushes processed under a valid geometry (frame or sample mode), the total
payload bytes handed to the sink plus the bytes left in the adapter equal
the initial buffered bytes plus the total input bytes: no byte is
duplicated or dropped. -/
theorem c6_conservation (c : Config) (sink : Nat → Flow) (fuel : Nat)
    (mp Mp al : Nat) (evs : List Ev) (tr tr' : Trace)
    (hg : getLengths c = some (mp, Mp, al))
    (hrun : runEvents c sink fuel evs tr = some tr') :
    totalLen tr'.packets + tr'.st.adapter.avail =
      totalLen tr.packets + tr.st.adapter.avail + totalSize evs :=
  runEvents_conserve hg evs tr tr' hrun

/-- Witness for C6: a 1-byte chunk (below the 2-byte minimum, so buffered)
followed by the end-of-stream flush; 1 byte emitted, 0 left, 1 byte in. -/
theorem c6_conservation_witness :
    totalLen ({ st := { adapter := { avail := 0, prevTs := some 0, distance := 1 },
                        discont := false, offset := 1 },
                packets := [{ len := 1, pt := 96, marker := false,
                              discontFlag := false, ts := some 0,
                              offsetField := 0 }] } : Trace).packets +
        ({ st := { adapter := { avail := 0, prevTs := some 0, distance := 1 },
                   discont := false, offset := 1 },
           packets := [{ len := 1, pt := 96, marker := false,
                         discontFlag := false, ts := some 0,
                         offsetField := 0 }] } : Trace).st.adapter.avail =
      totalLen trEmpty.packets + trEmpty.st.adapter.avail +
        totalSize [Ev.chunk { size := 1, ts := some 0, discont := false }, Ev.eos] :=
  c6_conservation cfgF2 sinkOK 4 2 10 2
    [Ev.chunk { size := 1, ts := some 0, discont := false }, Ev.eos]
    trEmpty _ (by decide) (by decide)

/-- The buffered trace right after pushing a 60-byte chunk (timestamp 100)
into the empty adapter under cfgA. -/
def trC1start : Trace :=
  { st := { adapter := { avail := 60, prevTs := some 100, distance := 0 },
            discont := false, offset := 0 }, packets := [] }

/-- The trace after the cfgA slicing loop drains those 60 bytes into three
20-byte packets. -/
def trC1out : Trace :=
  { st := { adapter := { avail := 0, prevTs := some 100, distance := 60 },
            discont := false, offset := 60 },
    packets := [{ len := 20, pt := 96, marker := false, discontFlag := false,
                  ts := some 100, offsetField := 0 },
                { len := 20, pt := 96, marker := false, discontFlag := false,
                  ts := some 10000100, offsetField := 80 },
                { len := 20, pt := 96, marker := false, discontFlag := false,
                  ts := some 20000100, offsetField := 160 }] }

/-- Counterexample to C1: under cfgA a 60-byte chunk produces a 3-packet
buffered sequence; with the sink rejecting the second packet, all 3 packets
are still pushed to the sink and the call returns GST_FLOW_OK (the verdict
of the last flush), not the failure. -/
theorem c1_counterexample :
    (handle_buffer cfgA sinkFail2 4 trEmpty
        { size := 60, ts := some 100, discont := false }).map
        (fun p => (p.1.packets.length, p.2)) = some (3, Flow.ok) ∧
    sinkFail2 1 = Flow.error := by
  decide

/-- C1 amended: a sink failure does not abort the slicing loop.  The loop's
state and emitted packets are independent of the sink verdicts, and the flow
value returned is the verdict of the last packet pushed (so an intermediate
failure can be masked by a later success); when no packet is pushed the
incoming ret is returned. -/
theorem c1_amended_no_abort (c : Config) (sink1 sink2 : Nat → Flow)
    (minp maxp align fuel avail : Nat) (r1 r2 : Flow) (tr : Trace)
    (out1 out2 : Trace × Flow)
    (h1 : sliceLoop c sink1 minp maxp align fuel avail r1 tr = some out1)
    (h2 : sliceLoop c sink2 minp maxp align fuel avail r2 tr = some out2) :
    out1.1 = out2.1 ∧
      out1.2 = (if out1.1.packets.length ≤ tr.packets.length then r1
                else sink1 (out1.1.packets.length - 1)) := by
  constructor
  · have hfst := @sliceLoop_sink_fst c minp maxp align sink1 sink2 fuel avail r1 r2 tr
    rw [h1, h2] at hfst
    simpa using hfst
  · obtain ⟨_, _, _, _, _, _, _, hP7⟩ := sliceLoop_run _ _ _ _ _ h1
    exact hP7

/-- Witness for the amended C1 at the 3-packet cfgA run with the sink
failing on the second packet. -/
theorem c1_amended_no_abort_witness :
    ((trC1out, Flow.ok) : Trace × Flow).1 = ((trC1out, Flow.ok) : Trace × Flow).1 ∧
    ((trC1out, Flow.ok) : Trace × Flow).2 =
      (if trC1out.packets.length ≤ trC1start.packets.length then Flow.ok
       else sinkFail2 (trC1out.packets.length - 1)) :=
  c1_amended_no_abort cfgA sinkFail2 sinkOK 20 20 20 4 60 Flow.ok Flow.ok
    trC1start (trC1out, Flow.ok) (trC1out, Flow.ok) (by decide) (by decide)

/-- Counterexample to C2: under cfgB the strategy computes
(min, max, align) = (20, 30, 20) — the ptime-derived max is not a multiple
of the frame alignment — and a 40-byte chunk produces one loop packet of 30
bytes, which is not aligned. -/
theorem c2_counterexample :
    getLengths cfgB = some (20, 30, 20) ∧
    (handle_buffer cfgB sinkOK 2 trEmpty
        { size := 40, ts := some 0, discont := false }).map
        (fun p => p.1.packets.map Packet.len) = some [30] ∧
    ¬ (30 % 20 = 0) := by
  decide

/-- C2 amended: min ≤ max always holds as produced by the strategy (the
clamp), and every loop-emitted packet satisfies payloadLen ≤ maxLen; the
full invariant payloadLen % align = 0 and minLen ≤ payloadLen additionally
holds whenever align divides both minLen and maxLen (e.g. frame mode with
max_ptime unset), but not in general. -/
theorem c2_amended_alignment (c : Config) (sink : Nat → Flow)
    (minp maxp align fuel avail : Nat) (ret : Flow) (tr : Trace)
    (out : Trace × Flow)
    (hlen : getLengths c = some (minp, maxp, align)) (hal : 0 < align)
    (hrun : sliceLoop c sink minp maxp align fuel avail ret tr = some out) :
    minp ≤ maxp ∧
      ∀ p ∈ out.1.packets, p ∈ tr.packets ∨
        (p.len ≤ maxp ∧
          (align ∣ minp → align ∣ maxp → (p.len % align = 0 ∧ minp ≤ p.len))) := by
  have hmM := getLengths_min_le_max c minp maxp align hlen
  refine ⟨hmM, ?_⟩
  obtain ⟨new, hP1, hP2, _, _, _, _, _⟩ := sliceLoop_run _ _ _ _ _ hrun
  intro p hp
  rw [hP1] at hp
  rcases List.mem_append.mp hp with hold | hnew
  · exact Or.inl hold
  · right
    obtain ⟨av, hge, _, hlen2⟩ := hP2 p hnew
    constructor
    · rw [hlen2]
      exact min_le_left _ _
    · intro hdm hdM
      constructor
      · rw [hlen2]
        rcases Nat.le_total maxp (ALIGN_DOWN av align) with hc | hc
        · rw [min_eq_left hc]
          obtain ⟨k, hk⟩ := hdM
          rw [hk]
          exact Nat.mul_mod_right align k
        · rw [min_eq_right hc]
          exact align_down_mod av align
      · rw [hlen2]
        have hminav : minp ≤ av := by omega
        have h1 : minp ≤ ALIGN_DOWN av align := le_align_down av align minp hal hdm hminav
        exact le_min hmM h1

/-- Witness for the amended C2 at the aligned cfgA run (align = min = max =
20 all divisible). -/
theorem c2_amended_alignment_witness :
    20 ≤ 20 ∧
      ∀ p ∈ (((trC1out, Flow.ok) : Trace × Flow)).1.packets, p ∈ trC1start.packets ∨
        (p.len ≤ 20 ∧
          (20 ∣ 20 → 20 ∣ 20 → (p.len % 20 = 0 ∧ 20 ≤ p.len))) :=
  c2_amended_alignment cfgA sinkOK 20 20 20 4 60 Flow.ok trC1start
    (trC1out, Flow.ok) (by decide) (by decide) (by decide)

/-- C3: the code has an infinite loop.  Under cfgC (MTU payload capacity 8
bytes, smaller than the 20-byte frame) max_payload_len computes to 0 and
min_payload_len is clamped to 0; handing any nonempty chunk enters the
buffered path, where every iteration flushes min(0, ALIGN_DOWN avail 20) = 0
bytes and the availability never decreases: no amount of fuel completes the
loop. -/
theorem c3_nontermination :
    ∀ fuel, handle_buffer cfgC sinkOK fuel trEmpty
      { size := 5, ts := some 0, discont := false } = none := by
  intro fuel
  have hg : getLengths cfgC = some (0, 0, 20) := by decide
  rw [handle_buffer_some hg]
  rw [discontStep_false rfl]
  unfold afterLengths
  rw [if_neg (by decide)]
  exact sliceLoop_stuck (by decide) (by decide) fuel _ _

/-- A state with nonempty adapter, pending discont flag and nonzero running
offset, used to exercise the reset transition. -/
def stC4 : St :=
  { adapter := { avail := 7, prevTs := some 5, distance := 3 },
    discont := true, offset := 9 }

/-- Counterexample to C4: the PAUSED_TO_READY transition clears the adapter
but leaves the running offset at 9 and the discont flag set; the first
packet pushed afterwards has its time-offset field computed from offset 9,
not 0. -/
theorem c4_counterexample :
    (change_state_paused_to_ready stC4).adapter = adapterClear ∧
    (change_state_paused_to_ready stC4).offset = 9 ∧
    (change_state_paused_to_ready stC4).discont = true ∧
    ¬ ((change_state_paused_to_ready stC4).offset = 0 ∧
       (change_state_paused_to_ready stC4).discont = false) ∧
    (audio_push cfgS sinkOK
        { st := change_state_paused_to_ready stC4, packets := [] } 2
        (some 0)).1.packets.map Packet.offsetField = [9] ∧
    ¬ ((9 : Nat) = get_rtptime cfgS 0) := by
  decide

/-- C4 amended: the stop/reset transition clears the accumulation buffer
only; the running offset and the discontinuity flag are left unchanged, and
the first packet emitted after a reset has its time-offset field computed
from the pre-reset running offset. -/
theorem c4_amended_reset_clears_buffer_only (st : St) (c : Config)
    (sink : Nat → Flow) (pkts : List Packet) (len : Nat) (ts : Option Nat) :
    (change_state_paused_to_ready st).adapter = adapterClear ∧
    (change_state_paused_to_ready st).offset = st.offset ∧
    (change_state_paused_to_ready st).discont = st.discont ∧
    ∃ pkt,
      (audio_push c sink { st := change_state_paused_to_ready st, packets := pkts }
          len ts).1.packets = pkts ++ [pkt] ∧
      pkt.offsetField = get_rtptime c st.offset := by
  exact ⟨rfl, rfl, rfl, pushPacket c (change_state_paused_to_ready st) len ts,
    rfl, rfl⟩

/-- Counterexample to C5: for a 12-bit sample width the derived fragment
size is 3 bytes (the doubling loop yields 24 bits), not the 2 bytes that
rounding 12 bits up to whole bytes would give. -/
theorem c5_counterexample :
    (set_samplebits_options cfgA trEmpty.st 12).map
        (fun p => p.1.fragment_size) = some 3 ∧
    ¬ ((set_samplebits_options cfgA trEmpty.st 12).map
        (fun p => p.1.fragment_size) = some 2) := by
  decide

theorem set_samplebits_of_compute {c : Config} {st : St} {s f : Nat}
    (h : computeFragmentBits 3 s = some f) :
    set_samplebits_options c st s =
      some ({ c with sample_size := s, fragment_size := f / 8 },
            { st with adapter := adapterClear }) := by
  unfold set_samplebits_options
  rw [h]
  rfl

/-- C5 amended: for every positive sample bit-width s (a gint, hence below
2^32 when stored into the guint loop variable) the doubling loop terminates
within 3 doublings at the first guint value s*2^k mod 2^32 divisible by 8,
and the derived fragment size is (s*2^k mod 2^32)/8 bytes.  For widths where
s*2^k stays below 2^32 this is the smallest byte count holding a whole
number of s-bit samples (3 bytes for s = 12, not the 2 bytes of rounding the
bit-width up to whole bytes); for very large widths the guint doubling wraps
(s = 2^29 + 1 ends at 8 wrapped bits, a 1-byte fragment). -/
theorem c5_amended_fragment_doubling (s : Nat) (hs : 0 < s)
    (hs32 : s < UINT_MOD) :
    ∃ k, k ≤ 3 ∧ computeFragmentBits 3 s = some (s * 2 ^ k % UINT_MOD) ∧
      (s * 2 ^ k % UINT_MOD) % 8 = 0 ∧
      ∀ (c : Config) (st : St),
        set_samplebits_options c st s =
          some ({ c with sample_size := s, fragment_size := s * 2 ^ k % UINT_MOD / 8 },
                { st with adapter := adapterClear }) := by
  have hU : UINT_MOD = 4294967296 := rfl
  have h8 : s % 8 = 0 ∨ s % 8 = 1 ∨ s % 8 = 2 ∨ s % 8 = 3 ∨ s % 8 = 4 ∨
      s % 8 = 5 ∨ s % 8 = 6 ∨ s % 8 = 7 := by omega
  have hp1 : s * 2 ^ 1 = s + s := by ring
  have hp2 : s * 2 ^ 2 = s + s + (s + s) := by ring
  have hp3 : s * 2 ^ 3 = s + s + (s + s) + (s + s + (s + s)) := by ring
  have main : ∃ k, k ≤ 3 ∧ computeFragmentBits 3 s = some (s * 2 ^ k % UINT_MOD) ∧
      (s * 2 ^ k % UINT_MOD) % 8 = 0 := by
    have case0 : s % 8 = 0 →
        ∃ k, k ≤ 3 ∧ computeFragmentBits 3 s = some (s * 2 ^ k % UINT_MOD) ∧
          (s * 2 ^ k % UINT_MOD) % 8 = 0 := by
      intro h
      have he : s * 2 ^ 0 % UINT_MOD = s := by
        rw [pow_zero, mul_one]
        exact Nat.mod_eq_of_lt hs32
      refine ⟨0, by omega, ?_, ?_⟩
      · rw [he]
        simp [computeFragmentBits, h]
      · rw [he]
        omega
    have case1 : (s + s) % UINT_MOD % 8 = 0 → ¬ s % 8 = 0 →
        ∃ k, k ≤ 3 ∧ computeFragmentBits 3 s = some (s * 2 ^ k % UINT_MOD) ∧
          (s * 2 ^ k % UINT_MOD) % 8 = 0 := by
      intro h2 hne
      have he : s * 2 ^ 1 % UINT_MOD = (s + s) % UINT_MOD := by rw [hp1]
      refine ⟨1, by omega, ?_, ?_⟩
      · rw [he]
        simp [computeFragmentBits, hne, h2]
      · rw [he]
        exact h2
    have case2 : (s + s + (s + s)) % UINT_MOD % 8 = 0 →
        ¬ (s + s) % UINT_MOD % 8 = 0 → ¬ s % 8 = 0 →
        ∃ k, k ≤ 3 ∧ computeFragmentBits 3 s = some (s * 2 ^ k % UINT_MOD) ∧
          (s * 2 ^ k % UINT_MOD) % 8 = 0 := by
      intro h4 h2 hne
      have he : s * 2 ^ 2 % UINT_MOD = (s + s + (s + s)) % UINT_MOD := by
        rw [hp2]
      refine ⟨2, by omega, ?_, ?_⟩
      · rw [he]
        simp [computeFragmentBits, hne, h2, h4]
      · rw [he]
        exact h4
    have case3 : (s + s + (s + s) + (s + s + (s + s))) % UINT_MOD % 8 = 0 →
        ¬ (s + s + (s + s)) % UINT_MOD % 8 = 0 →
        ¬ (s + s) % UINT_MOD % 8 = 0 → ¬ s % 8 = 0 →
        ∃ k, k ≤ 3 ∧ computeFragmentBits 3 s = some (s * 2 ^ k % UINT_MOD) ∧
          (s * 2 ^ k % UINT_MOD) % 8 = 0 := by
      intro h8a h4 h2 hne
      have he : s * 2 ^ 3 % UINT_MOD =
          (s + s + (s + s) + (s + s + (s + s))) % UINT_MOD := by
        rw [hp3]
      refine ⟨3, by omega, ?_, ?_⟩
      · rw [he]
        simp [computeFragmentBits, hne, h2, h4, h8a]
      · rw [he]
        exact h8a
    rcases h8 with h | h | h | h | h | h | h | h
    · exact case0 h
    · exact case3 (by rw [hU]; omega) (by rw [hU]; omega) (by rw [hU]; omega) (by omega)
    · exact case2 (by rw [hU]; omega) (by rw [hU]; omega) (by omega)
    · exact case3 (by rw [hU]; omega) (by rw [hU]; omega) (by rw [hU]; omega) (by omega)
    · exact case1 (by rw [hU]; omega) (by omega)
    · exact case3 (by rw [hU]; omega) (by rw [hU]; omega) (by rw [hU]; omega) (by omega)
    · exact case2 (by rw [hU]; omega) (by rw [hU]; omega) (by omega)
    · exact case3 (by rw [hU]; omega) (by rw [hU]; omega) (by rw [hU]; omega) (by omega)
  obtain ⟨k, hk3, hcf, hmod⟩ := main
  exact ⟨k, hk3, hcf, hmod, fun c st => set_samplebits_of_compute hcf⟩

/-- Witness for the amended C5 at s = 12: one doubling (k = 1) yields 24
bits, i.e. a 3-byte fragment. -/
theorem c5_amended_fragment_doubling_witness :
    ∃ k, k ≤ 3 ∧ computeFragmentBits 3 12 = some (12 * 2 ^ k % UINT_MOD) ∧
      (12 * 2 ^ k % UINT_MOD) % 8 = 0 ∧
      ∀ (c : Config) (st : St),
        set_samplebits_options c st 12 =
          some ({ c with sample_size := 12, fragment_size := 12 * 2 ^ k % UINT_MOD / 8 },
                { st with adapter := adapterClear }) :=
  c5_amended_fragment_doubling 12 (by decide) (by decide)

/-- The guint wrap in the doubling loop, concretely: for the 2^29 + 1 bit
width three doublings reach 8·(2^29 + 1) mod 2^32 = 8, so the derived
fragment size is 1 byte, not (2^29 + 1)·8/8. -/
theorem computeFragmentBits_wrap_example :
    computeFragmentBits 3 536870913 = some 8 ∧
    (set_samplebits_options cfgA trEmpty.st 536870913).map
        (fun p => p.1.fragment_size) = some 1 := by
  decide

/-- C7: flush with the AUTO (-1) timestamp sentinel.  A zero-length flush
(including flush-all on an empty buffer) emits nothing, changes no state and
returns OK; a positive-length flush emits exactly one packet whose timestamp
is: the recorded timestamp plus computeDuration(distance) when the recorded
timestamp is valid and the distance is positive, the recorded timestamp
as-is when the distance is zero, and the invalid marker when no timestamp is
recorded. -/
theorem c7_flush_auto_timestamp (c : Config) (sink : Nat → Flow) (tr : Trace)
    (n : Nat) (hn : 0 < n) :
    (audio_flush c sink tr (some 0) none = (tr, Flow.ok)) ∧
    (tr.st.adapter.avail = 0 → audio_flush c sink tr none none = (tr, Flow.ok)) ∧
    (∃ pkt, (audio_flush c sink tr (some n) none).1.packets = tr.packets ++ [pkt] ∧
      pkt.len = n ∧
      pkt.ts = (match tr.st.adapter.prevTs with
                | some t =>
                    if 0 < tr.st.adapter.distance
                    then some (t + get_duration c tr.st.adapter.distance)
                    else some t
                | none => none)) := by
  have hn' : n ≠ 0 := by omega
  refine ⟨audio_flush_zero c sink tr none,
    fun h => audio_flush_none_empty c sink tr none h,
    flushPacket c tr.st n, ?_, rfl, rfl⟩
  rw [audio_flush_pos_fst c sink tr n hn', flushTrace_packets]

/-- A trace with 5 buffered bytes whose recorded timestamp is 100 at
distance 4, used to instantiate the flush-timestamp theorem. -/
def trC7 : Trace :=
  { st := { adapter := { avail := 5, prevTs := some 100, distance := 4 },
            discont := false, offset := 0 }, packets := [] }

/-- Witness for C7 at trC7 with a 5-byte flush: the packet timestamp is
100 + computeDuration(4). -/
theorem c7_flush_auto_timestamp_witness :
    (audio_flush cfgS sinkOK trC7 (some 0) none = (trC7, Flow.ok)) ∧
    (trC7.st.adapter.avail = 0 → audio_flush cfgS sinkOK trC7 none none = (trC7, Flow.ok)) ∧
    (∃ pkt, (audio_flush cfgS sinkOK trC7 (some 5) none).1.packets = trC7.packets ++ [pkt] ∧
      pkt.len = 5 ∧
      pkt.ts = (match trC7.st.adapter.prevTs with
                | some t =>
                    if 0 < trC7.st.adapter.distance
                    then some (t + get_duration cfgS trC7.st.adapter.distance)
                    else some t
                | none => none)) :=
  c7_flush_auto_timestamp cfgS sinkOK trC7 5 (by decide)

theorem markedCount_le_one (fp ap : List Packet)
    (hfp : ∀ p ∈ fp, p.marker = false)
    (hap : ∀ q ∈ ap.tail, q.marker = false) :
    markedCount (fp ++ ap) ≤ 1 := by
  unfold markedCount
  rw [List.filter_append]
  have h1 : (fp.filter fun p => p.marker) = [] := by
    rw [List.filter_eq_nil]
    intro p hp
    simp [hfp p hp]
  rw [h1]
  simp only [List.nil_append]
  cases ap with
  | nil => simp
  | cons a l =>
      have h2 : (l.filter fun p => p.marker) = [] := by
        rw [List.filter_eq_nil]
        intro q hq
        simp [hap q (by simpa using hq)]
      rw [List.filter_cons]
      by_cases hma : a.marker = true
      · simp [hma, h2]
      · simp [hma, h2]

/-- After the DISCONT prologue set the flag: what the rest of handle_buffer
emits.  Starting from a trace whose discont flag is pending, the first
packet emitted (fast path or loop) carries the marker and clears the flag;
all later packets are unmarked; if nothing is emitted the flag stays
pending. -/
theorem c8_after {c : Config} {sink : Nat → Flow} {fuel mp Mp al : Nat}
    {tr1 : Trace} {ret1 : Flow} {chunk : Chunk} {out : Trace × Flow}
    (hdis : tr1.st.discont = true)
    (hrun : afterLengths c sink fuel mp Mp al tr1 ret1 chunk = some out) :
    ∃ ap, out.1.packets = tr1.packets ++ ap ∧
      (∀ p, ap.head? = some p → p.marker = true) ∧
      (∀ q ∈ ap.tail, q.marker = false) ∧
      (ap = [] → out.1.st.discont = true) ∧
      (ap ≠ [] → out.1.st.discont = false) := by
  unfold afterLengths at hrun
  split at hrun
  · injection hrun with hrun
    subst hrun
    refine ⟨[pushPacket c tr1.st chunk.size chunk.ts], rfl, ?_, ?_, ?_, ?_⟩
    · intro p hp
      simp only [List.head?_cons, Option.some.injEq] at hp
      subst hp
      show tr1.st.discont = true
      exact hdis
    · intro q hq
      simp at hq
    · intro h
      simp at h
    · intro _
      rfl
  · obtain ⟨new, hP1, _, hP3, hP4, hP5, _, _⟩ := sliceLoop_run _ _ _ _ _ hrun
    refine ⟨new, ?_, ?_, ?_, ?_, ?_⟩
    · rw [hP1]
    · intro p hp
      have := hP4 p hp
      simpa [hdis] using this
    · exact hP5
    · intro h
      subst h
      simpa [hdis] using hP3
    · intro hne
      rw [hP3]
      cases new with
      | nil => exact absurd rfl hne
      | cons a l => simp

/-- C8: discontinuity propagation.  For a chunk arriving marked
discontinuous when no discontinuity is already pending, the packet produced
by the discontinuity-triggered flush (present exactly when the buffer was
nonempty) does NOT carry the marker; among the packets built afterwards, at
most the first carries the marker (and then the flag is cleared), and if no
packet is built afterwards the flag stays pending for a later packet.  In
particular at most one packet of the call is marked. -/
theorem c8_discont_propagation (c : Config) (sink : Nat → Flow) (fuel : Nat)
    (tr : Trace) (chunk : Chunk) (out : Trace × Flow)
    (hm : ¬ c.mode = Mode.unset) (hd : chunk.discont = true)
    (h0 : tr.st.discont = false)
    (hrun : handle_buffer c sink fuel tr chunk = some out) :
    ∃ fp ap, out.1.packets = tr.packets ++ fp ++ ap ∧
      (∀ p ∈ fp, p.marker = false) ∧
      fp.length = (if tr.st.adapter.avail = 0 then 0 else 1) ∧
      (∀ p, ap.head? = some p → p.marker = true) ∧
      (∀ q ∈ ap.tail, q.marker = false) ∧
      (ap = [] → out.1.st.discont = true) ∧
      (ap ≠ [] → out.1.st.discont = false) ∧
      markedCount (fp ++ ap) ≤ 1 := by
  cases hgl : getLengths c with
  | none =>
      rw [handle_buffer_config2 hm hgl] at hrun
      injection hrun with hrun
      subst hrun
      by_cases ha : tr.st.adapter.avail = 0
      · rw [discontStep_true_empty hd ha]
        refine ⟨[], [], by simp [setDiscont], by simp, by simp [ha], by simp,
          by simp, fun _ => rfl, fun h => absurd rfl h, ?_⟩
        exact markedCount_le_one [] [] (by simp) (by simp)
      · rw [discontStep_true_pos hd ha]
        refine ⟨[flushPacket c tr.st tr.st.adapter.avail], [], ?_, ?_, ?_, by simp,
          by simp, fun _ => rfl, fun h => absurd rfl h, ?_⟩
        · simp [setDiscont, flushTrace_packets]
        · intro p hp
          simp only [List.mem_singleton] at hp
          subst hp
          rw [flushPacket_marker]
          exact h0
        · simp [ha]
        · refine markedCount_le_one _ [] ?_ (by simp)
          intro p hp
          simp only [List.mem_singleton] at hp
          subst hp
          rw [flushPacket_marker]
          exact h0
  | some x =>
      obtain ⟨mp, Mp, al⟩ := x
      rw [handle_buffer_some hgl] at hrun
      by_cases ha : tr.st.adapter.avail = 0
      · rw [discontStep_true_empty hd ha] at hrun
        obtain ⟨ap, hA1, hA2, hA3, hA4, hA5⟩ := c8_after rfl hrun
        refine ⟨[], ap, ?_, by simp, by simp [ha], hA2, hA3, hA4, hA5, ?_⟩
        · rw [hA1]
          simp [setDiscont]
        · refine markedCount_le_one [] ap (by simp) hA3
      · rw [discontStep_true_pos hd ha] at hrun
        obtain ⟨ap, hA1, hA2, hA3, hA4, hA5⟩ := c8_after rfl hrun
        have hfpm : ∀ p ∈ [flushPacket c tr.st tr.st.adapter.avail],
            p.marker = false := by
          intro p hp
          simp only [List.mem_singleton] at hp
          subst hp
          rw [flushPacket_marker]
          exact h0
        refine ⟨[flushPacket c tr.st tr.st.adapter.avail], ap, ?_, hfpm,
          by simp [ha], hA2, hA3, hA4, hA5, markedCount_le_one _ ap hfpm hA3⟩
        rw [hA1]
        simp [setDiscont, flushTrace_packets]

/-- A discontinuous 20-byte chunk. -/
def chunkDisc : Chunk := { size := 20, ts := some 200, discont := true }

/-- The result of handling chunkDisc from the empty trace under cfgA: the
discont flush is a no-op, the fast path emits one marked packet. -/
def trC8out : Trace :=
  { st := { adapter := { avail := 0, prevTs := none, distance := 0 },
            discont := false, offset := 20 },
    packets := [{ len := 20, pt := 96, marker := true, discontFlag := true,
                  ts := some 200, offsetField := 0 }] }

/-- Witness for C8 at the fast-path run of chunkDisc under cfgA. -/
theorem c8_discont_propagation_witness :
    ∃ fp ap, trC8out.packets = trEmpty.packets ++ fp ++ ap ∧
      (∀ p ∈ fp, p.marker = false) ∧
      fp.length = (if trEmpty.st.adapter.avail = 0 then 0 else 1) ∧
      (∀ p, ap.head? = some p → p.marker = true) ∧
      (∀ q ∈ ap.tail, q.marker = false) ∧
      (ap = [] → trC8out.st.discont = true) ∧
      (ap ≠ [] → trC8out.st.discont = false) ∧
      markedCount (fp ++ ap) ≤ 1 := by
  have h := c8_discont_propagation cfgA sinkOK 1 trEmpty chunkDisc
    (trC8out, Flow.ok) (by decide) (by decide) (by decide) (by decide)
  exact h

/-- A trace whose running offset sits one byte below the 32-bit RTP time
wrap under cfgS (8-bit samples: rtptime = offset). -/
def trC9 : Trace :=
  { st := { adapter := adapterClear, discont := false, offset := 4294967295 },
    packets := [] }

/-- Counterexample to C9: two consecutive 2-byte packets pushed from offset
2^32 - 1 carry time-offset fields 4294967295 and then 1 — the `guint32`
return of get_rtptime wraps, so the fields are not non-decreasing. -/
theorem c9_counterexample :
    ((audio_push cfgS sinkOK (audio_push cfgS sinkOK trC9 2 (some 0)).1 2
        (some 0)).1.packets.map Packet.offsetField = [4294967295, 1]) ∧
    ¬ ((4294967295 : Nat) ≤ 1) := by
  decide

/-- C9 amended: the running offset advances by exactly the payload length at
each emitted packet and never decreases; the packet's time-offset field is
get_rtptime of the offset before the advance; the untruncated rtptime is
monotone in the byte offset, and the stored (mod 2^32) fields are
non-decreasing whenever the untruncated values stay below 2^32. -/
theorem c9_amended_offset_monotone (c : Config) (st : St) (len : Nat)
    (ts : Option Nat) (b1 b2 : Nat) (h12 : b1 ≤ b2)
    (hb : rtptimeRaw c b2 < UINT_MOD) :
    (set_meta c st len ts).2.offset = st.offset + len ∧
    (set_meta c st len ts).1.offsetField = get_rtptime c st.offset ∧
    rtptimeRaw c b1 ≤ rtptimeRaw c b2 ∧
    get_rtptime c b1 ≤ get_rtptime c b2 := by
  have hraw : rtptimeRaw c b1 ≤ rtptimeRaw c b2 := by
    unfold rtptimeRaw
    cases hm : c.mode
    · simp
    · show uscale (b1 / c.frame_size * (c.frame_duration * GST_MSECOND))
          c.clock_rate GST_SECOND ≤
        uscale (b2 / c.frame_size * (c.frame_duration * GST_MSECOND))
          c.clock_rate GST_SECOND
      unfold uscale
      have h1 : b1 / c.frame_size ≤ b2 / c.frame_size :=
        Nat.div_le_div_right h12
      have h2 : b1 / c.frame_size * (c.frame_duration * GST_MSECOND) ≤
          b2 / c.frame_size * (c.frame_duration * GST_MSECOND) :=
        Nat.mul_le_mul_right _ h1
      exact Nat.div_le_div_right (Nat.mul_le_mul_right _ h2)
    · show b1 * 8 / c.sample_size ≤ b2 * 8 / c.sample_size
      exact Nat.div_le_div_right (Nat.mul_le_mul_right _ h12)
  refine ⟨rfl, rfl, hraw, ?_⟩
  unfold get_rtptime
  rw [Nat.mod_eq_of_lt (lt_of_le_of_lt hraw hb), Nat.mod_eq_of_lt hb]
  exact hraw

/-- Witness for the amended C9 under cfgS at offsets 3 ≤ 5. -/
theorem c9_amended_offset_monotone_witness :
    (set_meta cfgS stC4 2 (some 0)).2.offset = stC4.offset + 2 ∧
    (set_meta cfgS stC4 2 (some 0)).1.offsetField = get_rtptime cfgS stC4.offset ∧
    rtptimeRaw cfgS 3 ≤ rtptimeRaw cfgS 5 ∧
    get_rtptime cfgS 3 ≤ get_rtptime cfgS 5 :=
  c9_amended_offset_monotone cfgS stC4 2 (some 0) 3 5 (by decide) (by decide)

/-- C10: when the geometry mode is selected but invalid so that the lengths
computation fails, a discontinuous chunk arriving with a nonempty buffer
still flushes and emits the buffered bytes as one packet before
handle_buffer returns the configuration error: the error return does not
imply that no packet was emitted by that call.  The theorem is stated on the
subdomain where the C program is defined: frame mode with a nonzero frame
size and a zero frame duration.  In the remaining invalid-geometry cases
(frame_size = 0, or sample mode with sample_size = 0) the C program divides
by zero inside set_meta during the discont flush (get_frame_rtptime divides
by frame_size, get_sample_rtptime by sample_size) and never reaches the
error return, so no claim is made there. -/
theorem c10_discont_flush_before_validation (c : Config) (sink : Nat → Flow)
    (fuel : Nat) (tr : Trace) (chunk : Chunk)
    (hmode : c.mode = Mode.frame) (hfs : c.frame_size ≠ 0)
    (hfd : c.frame_duration = 0)
    (hd : chunk.discont = true) (ha : tr.st.adapter.avail ≠ 0) :
    getLengths c = none ∧
    handle_buffer c sink fuel tr chunk =
      some (setDiscont (flushTrace c tr tr.st.adapter.avail), Flow.error) ∧
    (setDiscont (flushTrace c tr tr.st.adapter.avail)).packets =
      tr.packets ++ [flushPacket c tr.st tr.st.adapter.avail] ∧
    (flushPacket c tr.st tr.st.adapter.avail).len = tr.st.adapter.avail ∧
    (setDiscont (flushTrace c tr tr.st.adapter.avail)).st.adapter.avail = 0 ∧
    (setDiscont (flushTrace c tr tr.st.adapter.avail)).st.discont = true := by
  have hg : getLengths c = none := by
    unfold getLengths
    rw [hmode]
    show get_frame_lengths c = none
    unfold get_frame_lengths
    rw [if_pos (Or.inr hfd)]
  have hm : ¬ c.mode = Mode.unset := by
    rw [hmode]
    decide
  refine ⟨hg, ?_, rfl, rfl, ?_, rfl⟩
  · rw [handle_buffer_config2 hm hg, discontStep_true_pos hd ha]
  · show tr.st.adapter.avail - tr.st.adapter.avail = 0
    omega

/-- cfgA with frame_duration zeroed out: the mode is set and the geometry is
invalid, while frame_size stays 20 so the rtptime division in set_meta is
defined. -/
def cfgZ : Config := { cfgA with frame_duration := 0 }

/-- A trace with 10 buffered bytes, recorded timestamp 100 at distance 0. -/
def trC10 : Trace :=
  { st := { adapter := { avail := 10, prevTs := some 100, distance := 0 },
            discont := false, offset := 0 }, packets := [] }

/-- Witness for C10: under cfgZ a discontinuous 7-byte chunk first flushes
the 10 buffered bytes as one packet, then the call fails with the
configuration error. -/
theorem c10_discont_flush_before_validation_witness :
    getLengths cfgZ = none ∧
    handle_buffer cfgZ sinkOK 3 trC10 { size := 7, ts := some 200, discont := true } =
      some (setDiscont (flushTrace cfgZ trC10 trC10.st.adapter.avail), Flow.error) ∧
    (setDiscont (flushTrace cfgZ trC10 trC10.st.adapter.avail)).packets =
      trC10.packets ++ [flushPacket cfgZ trC10.st trC10.st.adapter.avail] ∧
    (flushPacket cfgZ trC10.st trC10.st.adapter.avail).len = trC10.st.adapter.avail ∧
    (setDiscont (flushTrace cfgZ trC10 trC10.st.adapter.avail)).st.adapter.avail = 0 ∧
    (setDiscont (flushTrace cfgZ trC10 trC10.st.adapter.avail)).st.discont = true :=
  c10_discont_flush_before_validation cfgZ sinkOK 3 trC10
    { size := 7, ts := some 200, discont := true }
    (by decide) (by decide) (by decide) (by decide) (by decide)

end GstAudio
